import Mathlib

/-!
Verification development for the post-filtering engine of lunafind
(`src/kana2/filtering.py`).  Python strings are modelled as `List Char`,
numeric values as `ℚ`, raising code as `Except Err`.  The helper module
`utils` and the `Post` class are not part of the filtering source; the
converters taken from `utils` (`ratio2float`, `age2date`, `human2bytes`
and the `arrow`-based date lambda) are therefore parameters (`ExtConvs`),
and `Post` is modelled from the spec as an opaque string-keyed mapping
whose missing-key lookup is an error (Python mapping semantics).
-/

/-- Shorthand for a Python string: a list of characters. -/
abbrev Str := List Char

deriving instance DecidableEq for Except

namespace Kana2

/-- Python exceptions that the filtering code can raise. -/
inductive Err
  | keyError
  | typeError
  | valueError
  | indexError
  | attributeError
deriving DecidableEq

/-- A Python value stored in a post's info mapping or produced by a
converter.  Integers and floats are kept distinct (their `str()` forms
differ); float arithmetic is idealised as rational arithmetic. -/
inductive Val
  | vInt (n : ℤ)
  | vFloat (q : ℚ)
  | vStr (s : Str)
  | vBool (b : Bool)
deriving DecidableEq

/-- Modelled from the spec: a Post is "an opaque mapping from string keys
to values"; the filter only reads `post["info"][key]`.  The `info`
sub-mapping is modelled as an association list. -/
structure Post where
  info : List (Str × Val)
deriving DecidableEq

/-- Reading `post["info"][k]`: a missing key raises `KeyError`. -/
def getInfo (p : Post) (k : Str) : Except Err Val :=
  match p.info.lookup k with
  | some v => .ok v
  | none => .error .keyError

/-- Python truthiness of a value (`bool(v)`). -/
def pyTruthy : Val → Bool
  | .vInt n => n != 0
  | .vFloat q => q != 0
  | .vStr s => !s.isEmpty
  | .vBool b => b

/-- Numeric content of a value for comparisons; comparing a string with a
number raises `TypeError` in Python 3. -/
def numOf : Val → Except Err ℚ
  | .vInt n => .ok (n : ℚ)
  | .vFloat q => .ok q
  | .vBool b => .ok (if b then 1 else 0)
  | .vStr _ => .error .typeError

/-- Total numeric content, used only by `pyEq` where both sides are
already known to be non-strings. -/
def numTot : Val → ℚ
  | .vInt n => (n : ℚ)
  | .vFloat q => q
  | .vBool b => if b then 1 else 0
  | .vStr _ => 0

/-- Python `==` between two values: numbers compare numerically across
int/float/bool, strings compare as strings, mixed kinds are unequal. -/
def pyEq : Val → Val → Bool
  | .vStr a, .vStr b => a == b
  | .vStr _, _ => false
  | _, .vStr _ => false
  | a, b => numTot a == numTot b

/-- Value of a nonempty all-digit string, `none` otherwise. -/
def digitsVal (s : Str) : Option Nat :=
  if s.isEmpty then none
  else if s.all (fun c => c.isDigit) then
    some (s.foldl (fun acc c => acc * 10 + (c.toNat - 48)) 0)
  else none

/-- First occurrence split: `splitFirst sep s = some (a, b)` when
`s = a ++ sep ++ b` with `a` shortest, i.e. Python `s.split(sep, 1)`
when the separator occurs; `none` when it does not occur. -/
def splitFirst (sep : Str) : Str → Option (Str × Str)
  | [] => if sep.isEmpty then some ([], []) else none
  | c :: rest =>
    if sep.isPrefixOf (c :: rest) then some ([], (c :: rest).drop sep.length)
    else
      match splitFirst sep rest with
      | some (a, b) => some (c :: a, b)
      | none => none

/-- Python `s.split(ch)` for a single-character separator. -/
def splitOnChar (ch : Char) : Str → List Str
  | [] => [[]]
  | d :: rest =>
    if d = ch then [] :: splitOnChar ch rest
    else
      match splitOnChar ch rest with
      | [] => [[d]]
      | r :: rs => (d :: r) :: rs

/-- Unsigned decimal literal (`"5"`, `"5."`, `".5"`, `"2.5"`), as accepted
by Python `float()` on the forms the filter uses. -/
def parseUDec (s : Str) : Option ℚ :=
  match splitFirst (['.']) s with
  | none => (digitsVal s).map (fun n => (n : ℚ))
  | some (a, b) =>
    if a.isEmpty then (digitsVal b).map (fun nb => (nb : ℚ) / 10 ^ b.length)
    else
      match digitsVal a with
      | none => none
      | some na =>
        if b.isEmpty then some (na : ℚ)
        else (digitsVal b).map (fun nb => (na : ℚ) + (nb : ℚ) / 10 ^ b.length)

/-- Signed decimal literal. -/
def parseDec : Str → Option ℚ
  | '-' :: rest => (parseUDec rest).map (fun q => -q)
  | '+' :: rest => parseUDec rest
  | s => parseUDec s

/-- Signed integer literal, as accepted by Python `int()`. -/
def parseIntStr : Str → Option ℤ
  | '-' :: rest => (digitsVal rest).map (fun n => -(n : ℤ))
  | '+' :: rest => (digitsVal rest).map (fun n => (n : ℤ))
  | s => (digitsVal s).map (fun n => (n : ℤ))

/-- The Python builtin `int` used as a converter: ints pass through,
floats truncate toward zero, strings parse as integer literals or raise
`ValueError`, booleans become 0/1. -/
def pyInt : Val → Except Err Val
  | .vInt n => .ok (.vInt n)
  | .vFloat q => .ok (.vInt (Int.tdiv q.num (q.den : ℤ)))
  | .vStr s =>
    match parseIntStr s with
    | some n => .ok (.vInt n)
    | none => .error .valueError
  | .vBool b => .ok (.vInt (if b then 1 else 0))

/-- The Python builtin `float` used as a converter. -/
def pyFloat : Val → Except Err Val
  | .vInt n => .ok (.vFloat (n : ℚ))
  | .vFloat q => .ok (.vFloat q)
  | .vStr s =>
    match parseDec s with
    | some q => .ok (.vFloat q)
    | none => .error .valueError
  | .vBool b => .ok (.vFloat (if b then 1 else 0))

/-- Decimal digit string of a natural number. -/
def natDigitsStr (n : Nat) : Str := (toString n).data

/-- Left-pad with zeros to length `k`. -/
def padLeftZeros (k : Nat) (s : Str) : Str :=
  List.replicate (k - s.length) '0' ++ s

/-- Python `str()` of an (idealised) float with a terminating decimal
expansion: the shortest such expansion, with a trailing `.0` for integral
values.  Values without a terminating expansion within 30 digits (which
do not arise from the modelled converters) fall back to a fraction
rendering. -/
def floatRepr (q : ℚ) : Str :=
  let sign : Str := if q.num < 0 then ['-'] else []
  let n := q.num.natAbs
  let d := q.den
  match (List.range 30).find? (fun k => decide ((10 : ℕ) ^ k % d = 0)) with
  | some k =>
    if k = 0 then sign ++ natDigitsStr n ++ ".0".data
    else
      let ds := padLeftZeros (k + 1) (natDigitsStr (n * 10 ^ k / d))
      sign ++ ds.take (ds.length - k) ++ '.' :: ds.drop (ds.length - k)
  | none => sign ++ natDigitsStr n ++ '/' :: natDigitsStr d

/-- Python `str()` of a value. -/
def pyStrVal : Val → Str
  | .vInt n => (toString n).data
  | .vFloat q => floatRepr q
  | .vStr s => s
  | .vBool b => if b then "True".data else "False".data

/-- Converter kinds appearing in `META_NUM_TAGS`.  `cInt`/`cFloat` are
the Python builtins; the other four come from outside `filtering.py`
(the `utils` module and an `arrow` lambda) and are supplied through
`ExtConvs`. -/
inductive Conv
  | cInt
  | cFloat
  | cRatio2float
  | cAge2date
  | cDateArrow
  | cHuman2bytes
deriving DecidableEq

/-- The converters imported by `filtering.py` from outside the file:
`utils.ratio2float`, `utils.age2date`, `utils.human2bytes` and the
`arrow`-based lambda of the `date` entry. -/
structure ExtConvs where
  ratio2float : Val → Except Err Val
  age2date : Val → Except Err Val
  human2bytes : Val → Except Err Val
  date_arrow : Val → Except Err Val

/-- Resolve a converter kind to a function. -/
def convOf (ext : ExtConvs) : Conv → Val → Except Err Val
  | .cInt => pyInt
  | .cFloat => pyFloat
  | .cRatio2float => ext.ratio2float
  | .cAge2date => ext.age2date
  | .cDateArrow => ext.date_arrow
  | .cHuman2bytes => ext.human2bytes

/-- The `META_NUM_TAGS` dict as an association list: metatag name to
(post field, converter, `eq_fuzzy_20` flag, `reverse_cmp` flag). -/
def NUM_TABLE : List (Str × (Str × Conv × Bool × Bool)) :=
  [(("width".data), (("image_width".data), Conv.cInt, false, false)),
   (("height".data), (("image_height".data), Conv.cInt, false, false)),
   (("mpixels".data), (("mpixels".data), Conv.cFloat, false, false)),
   (("score".data), (("score".data), Conv.cInt, false, false)),
   (("favcount".data), (("fav_count".data), Conv.cInt, false, false)),
   (("id".data), (("id".data), Conv.cInt, false, false)),
   (("pixiv".data), (("pixiv_id".data), Conv.cInt, false, false)),
   (("pixiv_id".data), (("pixiv_id".data), Conv.cInt, false, false)),
   (("tagcount".data), (("tag_count".data), Conv.cInt, false, false)),
   (("gentags".data), (("tag_count_general".data), Conv.cInt, false, false)),
   (("arttags".data), (("tag_count_artist".data), Conv.cInt, false, false)),
   (("chartags".data), (("tag_count_character".data), Conv.cInt, false, false)),
   (("copytags".data), (("tag_count_copyright".data), Conv.cInt, false, false)),
   (("metatags".data), (("tag_count_meta".data), Conv.cInt, false, false)),
   (("ratio".data), (("ratio_float".data), Conv.cRatio2float, false, false)),
   (("age".data), (("created_at".data), Conv.cAge2date, false, true)),
   (("date".data), (("created_at".data), Conv.cDateArrow, false, false)),
   (("parent".data), (("parent_id".data), Conv.cInt, false, false)),
   (("child".data), (("children_num".data), Conv.cInt, false, false)),
   (("filesize".data), (("file_size".data), Conv.cHuman2bytes, true, false)),
   (("dlsize".data), (("dl_size".data), Conv.cHuman2bytes, false, false))]

/-- `META_NUM_TAGS[name]` as an optional lookup (`name in META_NUM_TAGS`
is its `isSome`). -/
def META_NUM_TAGS (name : Str) : Option (Str × Conv × Bool × Bool) :=
  NUM_TABLE.lookup name

/-- `lambda p, v: p["info"]["md5"] == v` -/
def md5_func (p : Post) (v : Str) : Except Err Bool := do
  let x ← getInfo p ("md5".data)
  pure (pyEq x (.vStr v))

/-- `lambda p, v: p["info"]["file_ext"] == v` -/
def filetype_func (p : Post) (v : Str) : Except Err Bool := do
  let x ← getInfo p ("file_ext".data)
  pure (pyEq x (.vStr v))

/-- `lambda p, v: p["info"]["dl_ext"] == v` -/
def dltype_func (p : Post) (v : Str) : Except Err Bool := do
  let x ← getInfo p ("dl_ext".data)
  pure (pyEq x (.vStr v))

/-- `lambda p, v: p["info"]["rating"].startswith(v)`; a non-string field
value would lack `startswith` (`AttributeError`). -/
def rating_func (p : Post) (v : Str) : Except Err Bool := do
  let x ← getInfo p ("rating".data)
  match x with
  | .vStr s => pure (v.isPrefixOf s)
  | _ => .error .attributeError

/-- `lambda p, v: p["info"][f"is_{v}_locked"]`; the raw field value is
used in boolean contexts, modelled by its truthiness. -/
def locked_func (p : Post) (v : Str) : Except Err Bool := do
  let x ← getInfo p ("is_".data ++ v ++ "_locked".data)
  pure (pyTruthy x)

/-- `lambda p, v: v in ("any", "all") or p["info"][f"is_{v}"]` -/
def status_func (p : Post) (v : Str) : Except Err Bool :=
  if v = "any".data ∨ v = "all".data then pure true
  else do
    let x ← getInfo p ("is_".data ++ v)
    pure (pyTruthy x)

/-- The `META_STR_TAGS_FUNCS` dict as an association list: `some f` for
a callable predicate, `none` for the reserved names mapped to Python
`None`. -/
def STR_TABLE : List (Str × Option (Post → Str → Except Err Bool)) :=
  [(("md5".data), some md5_func),
   (("filetype".data), some filetype_func),
   (("dltype".data), some dltype_func),
   (("rating".data), some rating_func),
   (("locked".data), some locked_func),
   (("status".data), some status_func),
   (("source".data), none),
   (("order".data), none)]

/-- `META_STR_TAGS_FUNCS[name]` as an optional lookup: `some (some f)`
for a callable predicate, `some none` for a reserved name, `none` when
the name is not a key. -/
def META_STR_TAGS_FUNCS (name : Str) : Option (Option (Post → Str → Except Err Bool)) :=
  STR_TABLE.lookup name

/-- `_tag_present`: `f" {tag} " in " %s " % post["info"]["tag_string"]`.
The `%s` conversion stringifies an arbitrary field value. -/
def tag_present (post : Post) (tag : Str) : Except Err Bool := do
  let v ← getInfo post ("tag_string".data)
  pure (decide ((' ' :: tag ++ [' ']) <:+: (' ' :: pyStrVal v ++ [' '])))

/-- Forward range test `convert(begin) <= info_v <= convert(end)`; the
chained comparison only evaluates `convert(end)` when the first
comparison holds. -/
def range_fwd (convert : Val → Except Err Val) (info_v : Val) (b0 e0 : Str) :
    Except Err Bool := do
  let bv ← convert (.vStr b0)
  let x ← numOf bv
  let m ← numOf info_v
  if x ≤ m then do
    let ev ← convert (.vStr e0)
    let y ← numOf ev
    pure (decide (m ≤ y))
  else pure false

/-- Reverse range test: after `begin, end = end, begin` the code returns
`not convert(begin) <= info_v <= convert(end)` (begin is now `e0`, the
original end). -/
def range_rev (convert : Val → Except Err Val) (info_v : Val) (b0 e0 : Str) :
    Except Err Bool := do
  let bv ← convert (.vStr e0)
  let x ← numOf bv
  let m ← numOf info_v
  if x ≤ m then do
    let ev ← convert (.vStr b0)
    let y ← numOf ev
    pure (!decide (m ≤ y))
  else pure true

/-- The `except Exception: pass` + `raise ValueError` wrapper of the
final `try` block of `compare`: a successful result passes through, any
exception becomes `ValueError`. -/
def guardValue : Except Err Bool → Except Err Bool
  | .ok b => .ok b
  | .error _ => .error .valueError

/-- The final `try` block of `compare`: convert the whole value string
and test fuzzy or exact equality; any exception inside the block is
swallowed and `ValueError` is raised instead. -/
def eq_check (convert : Val → Except Err Val) (info_v : Val) (value : Str)
    (eq_fuzzy_20 : Bool) : Except Err Bool :=
  guardValue (do
    let cv ← convert (.vStr value)
    if eq_fuzzy_20 then do
      let t ← numOf cv
      let x ← numOf info_v
      pure (decide (t - t / 20 ≤ x ∧ x ≤ t + t / 20))
    else pure (pyEq info_v cv))

/-- The nested `compare` function of `_meta_num_match`, with its guard
chain in source order. -/
def compare (convert : Val → Except Err Val) (info_v : Val) (value : Str)
    (eq_fuzzy_20 reverse_cmp : Bool) : Except Err Bool :=
  if value = "none".data then pure (!pyTruthy info_v)
  else if value = "any".data then pure (pyTruthy info_v)
  else if ">=".data.isPrefixOf value then do
    let c ← convert (.vStr (value.drop 2))
    let x ← numOf c
    let m ← numOf info_v
    pure (decide (x ≤ m))
  else if "..".data.isSuffixOf value then do
    let c ← convert (.vStr (value.take (value.length - 2)))
    let x ← numOf c
    let m ← numOf info_v
    pure (decide (x ≤ m))
  else if "<=".data.isPrefixOf value || "..".data.isPrefixOf value then do
    let c ← convert (.vStr (value.drop 2))
    let x ← numOf c
    let m ← numOf info_v
    pure (decide (m ≤ x))
  else if ">".data.isPrefixOf value then do
    let c ← convert (.vStr (value.drop 1))
    let x ← numOf c
    let m ← numOf info_v
    pure (decide (x < m))
  else if "<".data.isPrefixOf value then do
    let c ← convert (.vStr (value.drop 1))
    let x ← numOf c
    let m ← numOf info_v
    pure (decide (m < x))
  else if ("..".data) <:+: value then
    match splitFirst ("..".data) value with
    | some (b0, e0) =>
      if reverse_cmp then range_rev convert info_v b0 e0
      else range_fwd convert info_v b0 e0
    | none => .error .valueError
  else if value.contains ',' then
    pure (decide (pyStrVal info_v ∈ splitOnChar ',' value))
  else eq_check convert info_v value eq_fuzzy_20

/-- `_meta_num_match`: look up the metatag entry, convert the post's raw
field value, run `compare`, and negate the result when the metatag has
the `reverse_cmp` flag. -/
def meta_num_match (ext : ExtConvs) (post : Post) (tag value : Str) :
    Except Err Bool :=
  match META_NUM_TAGS tag with
  | none => .error .keyError
  | some (field, cv, eq_fuzzy_20, reverse_cmp) => do
    let raw ← getInfo post field
    let info_v ← convOf ext cv raw
    let result ← compare (convOf ext cv) info_v value eq_fuzzy_20 reverse_cmp
    pure (if reverse_cmp then !result else result)

/-- `META_STR_TAGS_FUNCS[tag](post, value)`: a missing key raises
`KeyError`; calling the `None` of a reserved name raises `TypeError`. -/
def eval_meta_str (p : Post) (tag v : Str) : Except Err Bool :=
  match META_STR_TAGS_FUNCS tag with
  | none => .error .keyError
  | some none => .error .typeError
  | some (some f) => f p v

/-- `tag, value = tag_val.split(":", maxsplit=1)`: unpacking fails with
`ValueError` when the token has no colon. -/
def splitColon1 (tag_val : Str) : Except Err (Str × Str) :=
  match splitFirst ([':']) tag_val with
  | some p => .ok p
  | none => .error .valueError

/-- `tag.rstrip("~-")`. -/
def rstrip_mods (s : Str) : Str :=
  (s.reverse.dropWhile (fun c => c == '~' || c == '-')).reverse

/-- `term[0]`, raising on an empty term. -/
def term0 : Str → Except Err Char
  | [] => .error .indexError
  | c :: _ => .ok c

/-- The decision loop of `_filter_post` over the presence map.  The
Python loop short-circuits, but its outcome is order-independent; it is
modelled by the equivalent aggregate tests.  Terms are scanned for their
first character up front (shlex never produces an empty term). -/
def decision (presences : List (Str × Bool)) : Except Err Bool := do
  let heads ← presences.mapM (fun tp => do
    let c ← term0 tp.1
    pure (c, tp.2))
  let bad := heads.any (fun cp => (cp.1 == '-' && cp.2) || (cp.1 != '~' && !cp.2))
  let tilde_in := heads.any (fun cp => cp.1 == '~')
  let tilde_present := heads.any (fun cp => cp.1 == '~' && cp.2)
  pure (!bad && (!tilde_in || tilde_present))

/-- The presence-map construction of `_filter_post` (also its
`return_analyze=True` result): each simple tag, numeric term and string
term is keyed by its original token string. -/
def filter_analyze (ext : ExtConvs) (post : Post)
    (simple_tags meta_num meta_str : List Str) :
    Except Err (List (Str × Bool)) := do
  let pres1 ← simple_tags.mapM (fun tag => do
    let b ← tag_present post tag
    pure (tag, b))
  let pres2 ← meta_num.mapM (fun tag_val => do
    let tv ← splitColon1 tag_val
    let b ← meta_num_match ext post (rstrip_mods tv.1) tv.2
    pure (tag_val, b))
  let pres3 ← meta_str.mapM (fun tag_val => do
    let tv ← splitColon1 tag_val
    let b ← eval_meta_str post tv.1 tv.2
    pure (tag_val, b))
  pure (pres1 ++ pres2 ++ pres3)

/-- `_filter_post` with `return_analyze=False`. -/
def filter_post (ext : ExtConvs) (post : Post)
    (simple_tags meta_num meta_str : List Str) : Except Err Bool := do
  let pres ← filter_analyze ext post simple_tags meta_num meta_str
  decision pres

/-- The classifier part of `search`: deduplicate the shlex tokens (the
tokenizer itself is not modelled; `search` receives its token list) and
partition them by looking up the substring before the first `:` in the
two tables; `terms - meta_num - meta_str` is the plain-tag remainder. -/
def headOf (t : Str) : Str := t.takeWhile (fun c => c != ':')

/-- Returns `(tags, meta_num, meta_str)` as built in `search`: the two
metatag sets are membership filters over the deduplicated terms, and
`terms - meta_num - meta_str` is the filter by the negation of both
membership tests. -/
def classify (tokens : List Str) : List Str × List Str × List Str :=
  (tokens.dedup.filter (fun t =>
     !(META_NUM_TAGS (headOf t)).isSome && !(META_STR_TAGS_FUNCS (headOf t)).isSome),
   tokens.dedup.filter (fun t => (META_NUM_TAGS (headOf t)).isSome),
   tokens.dedup.filter (fun t => (META_STR_TAGS_FUNCS (headOf t)).isSome))

/-- The filtering loop of `search` over the post sequence. -/
def filter_list (ext : ExtConvs) (tg mn ms : List Str) :
    List Post → Except Err (List Post)
  | [] => pure []
  | p :: ps => do
    let b ← filter_post ext p tg mn ms
    let rest ← filter_list ext tg mn ms ps
    pure (if b then p :: rest else rest)

/-- `search` without `yield_analyze`: classify once, then keep the posts
whose decision is true, in input order. -/
def search (ext : ExtConvs) (posts : List Post) (tokens : List Str) :
    Except Err (List Post) :=
  let c := classify tokens
  filter_list ext c.1 c.2.1 c.2.2 posts

/-- Converters where the external functions are irrelevant to the path
exercised; used as a concrete test input. -/
def extDefault : ExtConvs := ⟨pyFloat, pyFloat, pyFloat, pyFloat⟩

/-- A concrete converter input standing for `age2date` in tests:
`"1week"` maps to an earlier timestamp (100) than `"1day"` (700), like
`now - duration`; other values convert as integers. -/
def age_conv_test : Val → Except Err Val
  | .vStr s =>
    if s = "1week".data then .ok (.vInt 100)
    else if s = "1day".data then .ok (.vInt 700)
    else pyInt (.vStr s)
  | v => pyInt v

/-- Test converters with `age_conv_test` for `age2date`. -/
def extAge : ExtConvs := ⟨pyFloat, age_conv_test, pyFloat, pyFloat⟩

/-- Test converters reading byte sizes as plain integers. -/
def extBytes : ExtConvs := ⟨pyFloat, pyFloat, pyInt, pyFloat⟩

/-- A post holding only a tag string. -/
def postWithTags (ts : Str) : Post := ⟨[(("tag_string".data), Val.vStr ts)]⟩

/-- A post whose `created_at` (as converted by `age_conv_test`) is 400,
inside the interval [100, 700]. -/
def postAge : Post := ⟨[(("created_at".data), Val.vInt 400)]⟩

/-- A post whose raw `mpixels` field is the integer 2 (stringified "2",
while its float conversion stringifies to "2.0"). -/
def postMpix : Post := ⟨[(("mpixels".data), Val.vInt 2)]⟩

/-- A post whose `file_size` is exactly 1000000. -/
def postSize : Post := ⟨[(("file_size".data), Val.vInt 1000000)]⟩

/-- A post with an empty info mapping. -/
def postEmpty : Post := ⟨[]⟩

/-- Space-joined tag list, as the claims describe a well-formed
`tag_string`. -/
def spaceJoin : List Str → Str
  | [] => []
  | [t] => t
  | t :: ts => t ++ ' ' :: spaceJoin ts

/-- The padded form `" t1 t2 ... tn "` written token-first: each tag
preceded by one space, then one closing space. -/
def bigOf : List Str → Str
  | [] => [' ']
  | t :: ts => ' ' :: t ++ bigOf ts

theorem bindE_ok {α β : Type} (a : α) (f : α → Except Err β) :
    (Except.ok a >>= f) = f a := rfl

theorem bindE_err {α β : Type} (e : Err) (f : α → Except Err β) :
    ((Except.error e : Except Err α) >>= f) = Except.error e := rfl

theorem pureE (a : α) : (pure a : Except Err α) = Except.ok a := rfl

/-- A successful association-list lookup means the key occurs in the key
column. -/
theorem lookup_key_mem {β : Type} (l : List (Str × β)) (a : Str) (b : β)
    (h : l.lookup a = some b) : a ∈ l.map Prod.fst := by
  induction l with
  | nil => simp [List.lookup] at h
  | cons hd tl ih =>
    rw [List.lookup] at h
    split at h
    · simp only [List.map, List.mem_cons]
      exact Or.inl (by next heq => exact eq_of_beq heq)
    · simp only [List.map, List.mem_cons]
      exact Or.inr (ih h)

/-- Every key of `META_NUM_TAGS` contains no colon and ends in neither
`~` nor `-`. -/
theorem num_key_shape (s : Str) (e : Str × Conv × Bool × Bool)
    (h : META_NUM_TAGS s = some e) :
    ':' ∉ s ∧ s.getLast? ≠ some '~' ∧ s.getLast? ≠ some '-' := by
  have hmem := lookup_key_mem NUM_TABLE s e h
  have hall : ∀ k ∈ NUM_TABLE.map Prod.fst,
      ':' ∉ k ∧ k.getLast? ≠ some '~' ∧ k.getLast? ≠ some '-' := by decide
  exact hall s hmem

/-- Every key of `META_STR_TAGS_FUNCS` contains no colon and ends in
neither `~` nor `-`. -/
theorem str_key_shape (s : Str) (o : Option (Post → Str → Except Err Bool))
    (h : META_STR_TAGS_FUNCS s = some o) :
    ':' ∉ s ∧ s.getLast? ≠ some '~' ∧ s.getLast? ≠ some '-' := by
  have hmem := lookup_key_mem STR_TABLE s o h
  have hall : ∀ k ∈ STR_TABLE.map Prod.fst,
      ':' ∉ k ∧ k.getLast? ≠ some '~' ∧ k.getLast? ≠ some '-' := by decide
  exact hall s hmem

/-- The two metatag tables have disjoint key sets. -/
theorem num_str_disjoint (s : Str) (hn : (META_NUM_TAGS s).isSome)
    (hs : (META_STR_TAGS_FUNCS s).isSome) : False := by
  obtain ⟨e, he⟩ := Option.isSome_iff_exists.mp hn
  have hmem := lookup_key_mem NUM_TABLE s e he
  have hall : ∀ k ∈ NUM_TABLE.map Prod.fst,
      (META_STR_TAGS_FUNCS k).isSome = false := by decide
  rw [hall s hmem] at hs
  exact Bool.noConfusion hs

/-- `split(":")[0]` of a token `a:b` is `a` when `a` has no colon. -/
theorem headOf_append (a b : Str) (h : ':' ∉ a) :
    headOf (a ++ ':' :: b) = a := by
  induction a with
  | nil => simp [headOf]
  | cons c a2 ih =>
    have hc : c ≠ ':' := fun hc => h (hc ▸ List.mem_cons_self c a2)
    have h2 : ':' ∉ a2 := fun hm => h (List.mem_cons_of_mem c hm)
    simp only [List.cons_append, headOf, List.takeWhile_cons]
    simp only [bne_iff_ne, ne_eq, hc, not_false_eq_true, if_true]
    exact congrArg (c :: ·) (ih h2)

/-- `splitFirst` at the first colon of `a ++ ":" ++ b` with `a`
colon-free. -/
theorem splitFirst_colon (a b : Str) (h : ':' ∉ a) :
    splitFirst ([':']) (a ++ ':' :: b) = some (a, b) := by
  induction a with
  | nil =>
    show splitFirst ([':']) (':' :: b) = some ([], b)
    rw [splitFirst]
    simp [List.isPrefixOf]
  | cons c a2 ih =>
    have hc : c ≠ ':' := fun hc => h (hc ▸ List.mem_cons_self c a2)
    have h2 : ':' ∉ a2 := fun hm => h (List.mem_cons_of_mem c hm)
    show splitFirst ([':']) (c :: (a2 ++ ':' :: b)) = some (c :: a2, b)
    rw [splitFirst]
    have hp : ([':']).isPrefixOf (c :: (a2 ++ ':' :: b)) = false := by
      simp [List.isPrefixOf]
      exact fun hcc => absurd hcc.symm hc
    rw [hp]
    simp [ih h2]

/-- `split(":", 1)` of a token `a:b` with `a` colon-free. -/
theorem splitColon1_append (a b : Str) (h : ':' ∉ a) :
    splitColon1 (a ++ ':' :: b) = .ok (a, b) := by
  simp [splitColon1, splitFirst_colon a b h]

/-- `rstrip("~-")` leaves a string alone when its last character is not a
modifier. -/
theorem rstrip_eq_self (s : Str) (h1 : s.getLast? ≠ some '~')
    (h2 : s.getLast? ≠ some '-') : rstrip_mods s = s := by
  unfold rstrip_mods
  cases hs : s.reverse with
  | nil =>
    have : s = [] := by simpa using congrArg List.reverse hs
    simp [this]
  | cons c r =>
    have hlast : s.getLast? = some c := by
      rw [← List.head?_reverse, hs]; rfl
    have hc1 : c ≠ '~' := fun hcc => h1 (hlast.trans (by rw [hcc]))
    have hc2 : c ≠ '-' := fun hcc => h2 (hlast.trans (by rw [hcc]))
    have hstep : List.dropWhile (fun x => x == '~' || x == '-') (c :: r) = c :: r := by
      rw [List.dropWhile_cons]
      simp [hc1, hc2]
    rw [hstep, ← hs, List.reverse_reverse]

/-- A nonempty run of modifier characters ends in a modifier character. -/
theorem mods_getLast (mods : Str) (h0 : mods ≠ [])
    (hc : ∀ c ∈ mods, c = '~' ∨ c = '-') :
    ∃ c, mods.getLast? = some c ∧ (c = '~' ∨ c = '-') := by
  induction mods with
  | nil => exact absurd rfl h0
  | cons d t ih =>
    cases t with
    | nil => exact ⟨d, rfl, hc d (List.mem_cons_self d [])⟩
    | cons e t2 =>
      obtain ⟨c, hl, hm⟩ :=
        ih (by simp) (fun x hx => hc x (List.mem_cons_of_mem d hx))
      exact ⟨c, by rw [List.getLast?_cons_cons]; exact hl, hm⟩

/-- The guard chain of `compare` lands in the range branch: every
earlier test fails and `".."` occurs properly inside the value. -/
theorem compare_range_case (convert : Val → Except Err Val) (info_v : Val)
    (value b0 e0 : Str) (eq_fuzzy_20 reverse_cmp : Bool)
    (h1 : value ≠ "none".data) (h2 : value ≠ "any".data)
    (h3 : ">=".data.isPrefixOf value = false)
    (h4 : "..".data.isSuffixOf value = false)
    (h5 : "<=".data.isPrefixOf value = false)
    (h6 : "..".data.isPrefixOf value = false)
    (h7 : ">".data.isPrefixOf value = false)
    (h8 : "<".data.isPrefixOf value = false)
    (h9 : ("..".data) <:+: value)
    (h10 : splitFirst ("..".data) value = some (b0, e0)) :
    compare convert info_v value eq_fuzzy_20 reverse_cmp
      = if reverse_cmp then range_rev convert info_v b0 e0
        else range_fwd convert info_v b0 e0 := by
  unfold compare
  rw [if_neg h1, if_neg h2]
  simp only [h3, h4, h5, h6, h7, h8, Bool.or_self, Bool.false_eq_true, if_false]
  rw [if_pos h9, h10]

/-- The guard chain of `compare` lands in the comma-list branch. -/
theorem compare_comma_case (convert : Val → Except Err Val) (info_v : Val)
    (value : Str) (eq_fuzzy_20 reverse_cmp : Bool)
    (h1 : value ≠ "none".data) (h2 : value ≠ "any".data)
    (h3 : ">=".data.isPrefixOf value = false)
    (h4 : "..".data.isSuffixOf value = false)
    (h5 : "<=".data.isPrefixOf value = false)
    (h6 : "..".data.isPrefixOf value = false)
    (h7 : ">".data.isPrefixOf value = false)
    (h8 : "<".data.isPrefixOf value = false)
    (h9 : ¬ (("..".data) <:+: value))
    (h10 : value.contains ',' = true) :
    compare convert info_v value eq_fuzzy_20 reverse_cmp
      = .ok (decide (pyStrVal info_v ∈ splitOnChar ',' value)) := by
  unfold compare
  rw [if_neg h1, if_neg h2]
  simp only [h3, h4, h5, h6, h7, h8, Bool.or_self, Bool.false_eq_true, if_false]
  rw [if_neg h9]
  simp only [h10, if_true]
  rfl

/-- The guard chain of `compare` lands in the final conversion branch. -/
theorem compare_eq_case (convert : Val → Except Err Val) (info_v : Val)
    (value : Str) (eq_fuzzy_20 reverse_cmp : Bool)
    (h1 : value ≠ "none".data) (h2 : value ≠ "any".data)
    (h3 : ">=".data.isPrefixOf value = false)
    (h4 : "..".data.isSuffixOf value = false)
    (h5 : "<=".data.isPrefixOf value = false)
    (h6 : "..".data.isPrefixOf value = false)
    (h7 : ">".data.isPrefixOf value = false)
    (h8 : "<".data.isPrefixOf value = false)
    (h9 : ¬ (("..".data) <:+: value))
    (h10 : value.contains ',' = false) :
    compare convert info_v value eq_fuzzy_20 reverse_cmp
      = eq_check convert info_v value eq_fuzzy_20 := by
  unfold compare
  rw [if_neg h1, if_neg h2]
  simp only [h3, h4, h5, h6, h7, h8, Bool.or_self, Bool.false_eq_true, if_false]
  rw [if_neg h9]
  simp only [h10, Bool.false_eq_true, if_false]

/-- Unfolding `_meta_num_match` at a table entry. -/
theorem meta_num_match_some (ext : ExtConvs) (post : Post)
    (tag field value : Str) (cv : Conv) (ef rv : Bool)
    (he : META_NUM_TAGS tag = some (field, cv, ef, rv)) :
    meta_num_match ext post tag value
      = ((getInfo post field) >>= fun raw =>
         (convOf ext cv raw) >>= fun info_v =>
         (compare (convOf ext cv) info_v value ef rv) >>= fun result =>
         pure (if rv then !result else result)) := by
  unfold meta_num_match
  rw [he]

/-- C1 (code_bug evaluation): for the query `"-explicit safe"`, the code
rejects every post — including a post whose tag string is exactly
`"safe"`, which the claim says must be accepted.  The `-`-prefixed token
is looked up literally (`_tag_present(post, "-explicit")`) and the
aggregation rule `term[0] != "~" and not present` then treats it as a
required term, so its absence rejects the post.  A post that does carry
`explicit` is also rejected, as the claim demands. -/
theorem C1_negation_eval :
    search extDefault [postWithTags ("safe".data)]
      [("-explicit".data), ("safe".data)] = .ok []
    ∧ search extDefault [postWithTags ("explicit safe".data)]
      [("-explicit".data), ("safe".data)] = .ok [] := by decide

/-- C2 (code_bug evaluation): for the query `"~foo ~bar baz"`, a post
with tag string `"baz"` is rejected (as the claim says), but the post
with tag string `"baz foo"` is rejected too, contradicting the claim:
the OR-group presence check looks for the literal token `"~foo"` in the
tag string, so adding the tag `foo` never satisfies it. -/
theorem C2_or_group_eval :
    search extDefault [postWithTags ("baz".data)]
      [("~foo".data), ("~bar".data), ("baz".data)] = .ok []
    ∧ search extDefault [postWithTags ("baz foo".data)]
      [("~foo".data), ("~bar".data), ("baz".data)] = .ok [] := by decide

/-- C5 (counterexample): evaluating the reserved string metatag
`source:x` does not return false; it raises `TypeError` (the `None`
stored in `META_STR_TAGS_FUNCS` is called). -/
theorem C5_counterexample :
    eval_meta_str postEmpty ("source".data) ("x".data) = .error .typeError
    ∧ eval_meta_str postEmpty ("source".data) ("x".data) ≠ .ok false := by
  decide

/-- C5 (amended): for every post and value, evaluating a `source:...` or
`order:...` term raises `TypeError` — the `None` predicate is called —
and the error propagates out of `_filter_post`; the term is never
treated as always-absent. -/
theorem C5_reserved_typeerror (ext : ExtConvs) (p : Post) (name v : Str)
    (h : name = "source".data ∨ name = "order".data) :
    eval_meta_str p name v = .error .typeError
    ∧ filter_post ext p [] [] [name ++ ':' :: v] = .error .typeError := by
  have hsrc : ∀ (p2 : Post) (v2 : Str),
      eval_meta_str p2 ("source".data) v2 = Except.error Err.typeError :=
    fun _ _ => rfl
  have hord : ∀ (p2 : Post) (v2 : Str),
      eval_meta_str p2 ("order".data) v2 = Except.error Err.typeError :=
    fun _ _ => rfl
  rcases h with rfl | rfl
  · refine ⟨hsrc p v, ?_⟩
    unfold filter_post filter_analyze
    simp only [List.mapM_cons, List.mapM_nil, pureE, bindE_ok,
      splitColon1_append ("source".data) v (by decide), hsrc, bindE_err]
  · refine ⟨hord p v, ?_⟩
    unfold filter_post filter_analyze
    simp only [List.mapM_cons, List.mapM_nil, pureE, bindE_ok,
      splitColon1_append ("order".data) v (by decide), hord, bindE_err]

/-- C5 (witness): the amended statement at `source:x` on a concrete
post. -/
theorem C5_reserved_typeerror_witness :
    eval_meta_str postEmpty ("source".data) ("x".data) = .error .typeError
    ∧ filter_post extDefault postEmpty [] [] [("source".data) ++ ':' :: ("x".data)]
      = .error .typeError :=
  C5_reserved_typeerror extDefault postEmpty ("source".data) ("x".data) (Or.inl rfl)

/-- C4 (counterexample): the token `width-:100` is not classified as a
numeric-metatag term — the classifier looks up the name with the
trailing modifier still attached — and instead lands in the plain-tag
set. -/
theorem C4_counterexample :
    (("width-:100".data) ∉ (classify [("width-:100".data)]).2.1)
    ∧ (("width-:100".data) ∈ (classify [("width-:100".data)]).1) := by decide

/-- C4 (amended): a token `name+mods:value` whose name is a numeric
metatag key followed by a nonempty run of `~`/`-` modifiers is NOT
classified as a numeric-metatag term: the classifier looks the name up
unstripped, and no table key ends in a modifier, so the token falls into
the plain-tag set; `_filter_post` then keys the presence map by the full
original token string and evaluates it as a plain tag (the
`rstrip("~-")` in `_filter_post` only applies to tokens already
classified numeric). -/
theorem C4_modifier_classification (name mods value : Str)
    (tokens : List Str) (ext : ExtConvs) (p : Post)
    (hname : (META_NUM_TAGS name).isSome)
    (hm0 : mods ≠ []) (hmc : ∀ c ∈ mods, c = '~' ∨ c = '-')
    (htok : name ++ mods ++ ':' :: value ∈ tokens) :
    (name ++ mods ++ ':' :: value) ∈ (classify tokens).1
    ∧ (name ++ mods ++ ':' :: value) ∉ (classify tokens).2.1
    ∧ (name ++ mods ++ ':' :: value) ∉ (classify tokens).2.2
    ∧ filter_analyze ext p [name ++ mods ++ ':' :: value] [] []
      = (tag_present p (name ++ mods ++ ':' :: value)).map
          (fun b => [(name ++ mods ++ ':' :: value, b)]) := by
  obtain ⟨e, he⟩ := Option.isSome_iff_exists.mp hname
  obtain ⟨hcol, -, -⟩ := num_key_shape name e he
  have hcolm : ':' ∉ mods := fun hm => by
    rcases hmc ':' hm with h | h <;> exact absurd h (by decide)
  have hcol2 : ':' ∉ name ++ mods := by
    intro hm
    rcases List.mem_append.mp hm with h | h
    · exact hcol h
    · exact hcolm h
  obtain ⟨c, hlast, hcm⟩ := mods_getLast mods hm0 hmc
  have hlast2 : (name ++ mods).getLast? = some c := by
    rw [List.getLast?_append_of_ne_nil name hm0]
    exact hlast
  have hnum : META_NUM_TAGS (name ++ mods) = none := by
    cases hq : META_NUM_TAGS (name ++ mods) with
    | none => rfl
    | some e2 =>
      obtain ⟨-, k1, k2⟩ := num_key_shape _ e2 hq
      rcases hcm with rfl | rfl
      · exact absurd hlast2 k1
      · exact absurd hlast2 k2
  have hstr : META_STR_TAGS_FUNCS (name ++ mods) = none := by
    cases hq : META_STR_TAGS_FUNCS (name ++ mods) with
    | none => rfl
    | some o2 =>
      obtain ⟨-, k1, k2⟩ := str_key_shape _ o2 hq
      rcases hcm with rfl | rfl
      · exact absurd hlast2 k1
      · exact absurd hlast2 k2
  have hhead : headOf (name ++ mods ++ ':' :: value) = name ++ mods :=
    headOf_append (name ++ mods) value hcol2
  have hmem : name ++ mods ++ ':' :: value ∈ tokens.dedup :=
    List.mem_dedup.mpr htok
  refine ⟨?_, ?_, ?_, ?_⟩
  · show _ ∈ tokens.dedup.filter (fun t =>
      !(META_NUM_TAGS (headOf t)).isSome && !(META_STR_TAGS_FUNCS (headOf t)).isSome)
    exact List.mem_filter.mpr ⟨hmem, by rw [hhead, hnum, hstr]; rfl⟩
  · intro hin
    have hp := (List.mem_filter.mp (show _ ∈ tokens.dedup.filter
        (fun t => (META_NUM_TAGS (headOf t)).isSome) from hin)).2
    rw [hhead, hnum] at hp
    exact Bool.noConfusion hp
  · intro hin
    have hp := (List.mem_filter.mp (show _ ∈ tokens.dedup.filter
        (fun t => (META_STR_TAGS_FUNCS (headOf t)).isSome) from hin)).2
    rw [hhead, hstr] at hp
    exact Bool.noConfusion hp
  · unfold filter_analyze
    simp only [List.mapM_nil, List.mapM_cons, pureE, bindE_ok]
    cases htp : tag_present p (name ++ mods ++ ':' :: value) with
    | ok b => simp [htp, bindE_ok, pureE, Except.map]
    | error er => simp [htp, bindE_err, Except.map]

/-- C4 (witness): the amended statement at the concrete token
`width-:100` classified against a concrete post. -/
theorem C4_modifier_classification_witness :
    (("width-:100".data) ∈ (classify [("width-:100".data)]).1)
    ∧ (("width-:100".data) ∉ (classify [("width-:100".data)]).2.1)
    ∧ (("width-:100".data) ∉ (classify [("width-:100".data)]).2.2)
    ∧ filter_analyze extDefault (postWithTags ("safe".data))
        [("width-:100".data)] [] []
      = .ok [(("width-:100".data), false)] := by
  obtain ⟨h1, h2, h3, h4⟩ := C4_modifier_classification ("width".data)
      ("-".data) ("100".data) [("width-:100".data)] extDefault
      (postWithTags ("safe".data)) (by decide) (by decide) (by decide)
      (by decide)
  exact ⟨h1, h2, h3, h4.trans (by decide)⟩

/-- C3 (counterexample): with a concrete stand-in converter for
`age2date` mapping `"1week"` to 100 and `"1day"` to 700, a post whose
converted `created_at` is 400 — inside the mapped interval
[convert("1week"), convert("1day")] = [100, 700] — is ACCEPTED by
`age:1day..1week` (the range branch negates once and the final
`reverse_cmp` step negates again), not rejected as the claim states. -/
theorem C3_counterexample :
    meta_num_match extAge postAge ("age".data) ("1day..1week".data) = .ok true
    ∧ extAge.age2date (.vStr ("1week".data)) = .ok (.vInt 100)
    ∧ extAge.age2date (.vStr ("1day".data)) = .ok (.vInt 700)
    ∧ getInfo postAge ("created_at".data) = .ok (.vInt 400)
    ∧ (((100 : ℤ) : ℚ) ≤ ((400 : ℤ) : ℚ) ∧ ((400 : ℤ) : ℚ) ≤ ((700 : ℤ) : ℚ)) := by
  decide

/-- C3 (amended): evaluating `age:1day..1week` returns TRUE exactly for
the posts whose converted `created_at` value lies inside the mapped
range [convert("1week"), convert("1day")], bounds inclusive, and FALSE
outside it: the swap-and-negate of the reverse-comparison range branch
is negated once more by the final `reverse_cmp` step of
`_meta_num_match`, so the two negations cancel. -/
theorem C3_age_range (ext : ExtConvs) (p : Post) (raw cv cw cd : Val)
    (v w d : ℚ)
    (hfield : getInfo p ("created_at".data) = .ok raw)
    (hconv : ext.age2date raw = .ok cv)
    (hv : numOf cv = .ok v)
    (hw : ext.age2date (.vStr ("1week".data)) = .ok cw)
    (hwq : numOf cw = .ok w)
    (hd : ext.age2date (.vStr ("1day".data)) = .ok cd)
    (hdq : numOf cd = .ok d) :
    meta_num_match ext p ("age".data) ("1day..1week".data)
      = .ok (decide (w ≤ v ∧ v ≤ d)) := by
  have he : META_NUM_TAGS ("age".data)
      = some (("created_at".data), Conv.cAge2date, false, true) := by decide
  rw [meta_num_match_some ext p ("age".data) ("created_at".data)
      ("1day..1week".data) Conv.cAge2date false true he]
  simp only [convOf]
  rw [hfield, bindE_ok, hconv, bindE_ok]
  rw [compare_range_case ext.age2date cv ("1day..1week".data) ("1day".data)
      ("1week".data) false true (by decide) (by decide) (by decide) (by decide)
      (by decide) (by decide) (by decide) (by decide) (by decide) (by decide)]
  simp only [if_true]
  unfold range_rev
  rw [hw, bindE_ok, hwq, bindE_ok, hv, bindE_ok]
  by_cases hcmp : w ≤ v
  · rw [if_pos hcmp, hd, bindE_ok, hdq, bindE_ok]
    simp [pureE, bindE_ok, Bool.not_not, Bool.decide_and, decide_eq_true hcmp]
  · rw [if_neg hcmp]
    simp [pureE, bindE_ok, Bool.decide_and, decide_eq_false hcmp]

/-- C3 (witness): the amended statement instantiated at the concrete
converter and post of the counterexample, an inside point giving
`.ok true`. -/
theorem C3_age_range_witness :
    meta_num_match extAge postAge ("age".data) ("1day..1week".data)
      = .ok true := by
  have h := C3_age_range extAge postAge (.vInt 400) (.vInt 400) (.vInt 100)
      (.vInt 700) ((400 : ℤ) : ℚ) ((100 : ℤ) : ℚ) ((700 : ℤ) : ℚ)
      (by decide) (by decide) (by decide) (by decide) (by decide) (by decide)
      (by decide)
  rw [h]
  decide

/-- C6 (counterexample): for the numeric metatag `mpixels` (converter
`float`) on a post whose raw `mpixels` field is the integer 2, the term
`mpixels:2.0,x` evaluates to true — the comma branch stringifies the
CONVERTED value (`str(2.0) = "2.0"`), while the unconverted raw value
stringifies to `"2"`, which is not in the list, so the claim as stated
demands false. -/
theorem C6_counterexample :
    meta_num_match extDefault postMpix ("mpixels".data) ("2.0,x".data) = .ok true
    ∧ pyStrVal (Val.vInt 2) = "2".data
    ∧ (("2".data) ∉ splitOnChar ',' ("2.0,x".data))
    ∧ getInfo postMpix ("mpixels".data) = .ok (.vInt 2) := by decide

/-- C6 (amended): for every numeric metatag, a comma-containing value
matching none of the earlier syntaxes evaluates to true iff the
CONVERTED field value, stringified, appears verbatim in the comma-split
list — negated once more for reverse-comparison metatags by the final
`reverse_cmp` step. -/
theorem C6_comma_converted (ext : ExtConvs) (p : Post)
    (name field value : Str) (cvk : Conv) (ef rv : Bool) (raw cv : Val)
    (he : META_NUM_TAGS name = some (field, cvk, ef, rv))
    (hfield : getInfo p field = .ok raw)
    (hconv : convOf ext cvk raw = .ok cv)
    (h1 : value ≠ "none".data) (h2 : value ≠ "any".data)
    (h3 : ">=".data.isPrefixOf value = false)
    (h4 : "..".data.isSuffixOf value = false)
    (h5 : "<=".data.isPrefixOf value = false)
    (h6 : "..".data.isPrefixOf value = false)
    (h7 : ">".data.isPrefixOf value = false)
    (h8 : "<".data.isPrefixOf value = false)
    (h9 : ¬ (("..".data) <:+: value))
    (h10 : value.contains ',' = true) :
    meta_num_match ext p name value
      = .ok (if rv then !decide (pyStrVal cv ∈ splitOnChar ',' value)
             else decide (pyStrVal cv ∈ splitOnChar ',' value)) := by
  rw [meta_num_match_some ext p name field value cvk ef rv he]
  rw [hfield, bindE_ok, hconv, bindE_ok]
  rw [compare_comma_case (convOf ext cvk) cv value ef rv h1 h2 h3 h4 h5 h6
      h7 h8 h9 h10]
  rw [bindE_ok]
  rfl

/-- C6 (witness): the amended statement at the mpixels counterexample
input, where the converted value 2.0 stringifies into the list. -/
theorem C6_comma_converted_witness :
    meta_num_match extDefault postMpix ("mpixels".data) ("2.0,x".data)
      = .ok true := by
  have h := C6_comma_converted extDefault postMpix ("mpixels".data)
      ("mpixels".data) ("2.0,x".data) Conv.cFloat false false (.vInt 2)
      (.vFloat ((2 : ℤ) : ℚ)) (by decide) (by decide) (by decide) (by decide)
      (by decide) (by decide) (by decide) (by decide) (by decide) (by decide)
      (by decide) (by decide) (by decide)
  rw [h]
  decide

/-- C9 (confirmed): for the fuzzy metatag `filesize`, a plain-number
value (no special syntax) converts to a target `t` and the term is true
iff the converted field value `v` satisfies `t - t/20 ≤ v ≤ t + t/20`. -/
theorem C9_fuzzy_filesize (ext : ExtConvs) (p : Post) (raw cv tv : Val)
    (v t : ℚ) (value : Str)
    (hfield : getInfo p ("file_size".data) = .ok raw)
    (hconv : ext.human2bytes raw = .ok cv)
    (hv : numOf cv = .ok v)
    (h1 : value ≠ "none".data) (h2 : value ≠ "any".data)
    (h3 : ">=".data.isPrefixOf value = false)
    (h4 : "..".data.isSuffixOf value = false)
    (h5 : "<=".data.isPrefixOf value = false)
    (h6 : "..".data.isPrefixOf value = false)
    (h7 : ">".data.isPrefixOf value = false)
    (h8 : "<".data.isPrefixOf value = false)
    (h9 : ¬ (("..".data) <:+: value))
    (h10 : value.contains ',' = false)
    (hval : ext.human2bytes (.vStr value) = .ok tv)
    (ht : numOf tv = .ok t) :
    meta_num_match ext p ("filesize".data) value
      = .ok (decide (t - t / 20 ≤ v ∧ v ≤ t + t / 20)) := by
  have he : META_NUM_TAGS ("filesize".data)
      = some (("file_size".data), Conv.cHuman2bytes, true, false) := by decide
  rw [meta_num_match_some ext p ("filesize".data) ("file_size".data) value
      Conv.cHuman2bytes true false he]
  simp only [convOf]
  rw [hfield, bindE_ok, hconv, bindE_ok]
  rw [compare_eq_case ext.human2bytes cv value true false h1 h2 h3 h4 h5 h6
      h7 h8 h9 h10]
  unfold eq_check
  rw [hval, bindE_ok]
  simp only [if_true]
  rw [ht, bindE_ok, hv, bindE_ok]
  simp [guardValue, bindE_ok, pureE]

/-- C9 (witness): `filesize:1000000` with integer byte parsing accepts a
post of converted size exactly 1000000. -/
theorem C9_fuzzy_filesize_witness :
    meta_num_match extBytes postSize ("filesize".data) ("1000000".data)
      = .ok true := by
  have h := C9_fuzzy_filesize extBytes postSize (.vInt 1000000)
      (.vInt 1000000) (.vInt 1000000) ((1000000 : ℤ) : ℚ)
      ((1000000 : ℤ) : ℚ) ("1000000".data) (by decide) (by decide)
      (by decide) (by decide) (by decide) (by decide) (by decide) (by decide)
      (by decide) (by decide) (by decide) (by decide) (by decide) (by decide)
      (by decide)
  have hb : decide ((((1000000 : ℤ) : ℚ) - ((1000000 : ℤ) : ℚ) / 20
        ≤ ((1000000 : ℤ) : ℚ))
      ∧ (((1000000 : ℤ) : ℚ) ≤ ((1000000 : ℤ) : ℚ) + ((1000000 : ℤ) : ℚ) / 20))
      = true := decide_eq_true (by norm_num)
  rw [h, hb]

/-- C8 (confirmed): for any token list, the three classifier components
are pairwise disjoint and together contain exactly the deduplicated
tokens. -/
theorem C8_classifier_partition (tokens : List Str) :
    List.Disjoint (classify tokens).1 (classify tokens).2.1
    ∧ List.Disjoint (classify tokens).1 (classify tokens).2.2
    ∧ List.Disjoint (classify tokens).2.1 (classify tokens).2.2
    ∧ ∀ t, t ∈ tokens.dedup ↔
        (t ∈ (classify tokens).1 ∨ t ∈ (classify tokens).2.1
         ∨ t ∈ (classify tokens).2.2) := by
  simp only [classify]
  refine ⟨?_, ?_, ?_, ?_⟩
  · intro t h1 h2
    have p1 := (List.mem_filter.mp h1).2
    have p2 := (List.mem_filter.mp h2).2
    simp only [Bool.and_eq_true, Bool.not_eq_true'] at p1
    rw [p1.1] at p2
    exact Bool.noConfusion p2
  · intro t h1 h2
    have p1 := (List.mem_filter.mp h1).2
    have p2 := (List.mem_filter.mp h2).2
    simp only [Bool.and_eq_true, Bool.not_eq_true'] at p1
    rw [p1.2] at p2
    exact Bool.noConfusion p2
  · intro t h1 h2
    exact num_str_disjoint (headOf t) (List.mem_filter.mp h1).2
      (List.mem_filter.mp h2).2
  · intro t
    constructor
    · intro ht
      by_cases hn : (META_NUM_TAGS (headOf t)).isSome
      · exact Or.inr (Or.inl (List.mem_filter.mpr ⟨ht, hn⟩))
      · by_cases hs : (META_STR_TAGS_FUNCS (headOf t)).isSome
        · exact Or.inr (Or.inr (List.mem_filter.mpr ⟨ht, hs⟩))
        · refine Or.inl (List.mem_filter.mpr ⟨ht, ?_⟩)
          simp only [Bool.not_eq_true] at hn hs
          simp [hn, hs]
    · rintro (h | h | h) <;> exact (List.mem_filter.mp h).1

/-- C10 (confirmed): if a post's info mapping lacks the field named by a
numeric metatag entry, evaluating the term raises `KeyError` and the
error propagates out of `search` (the post is not silently dropped or
treated as term-absent); for string metatags, a post with an empty info
mapping likewise raises `KeyError` for every callable predicate (with
`status:any`/`status:all` excluded, as they short-circuit before any
field access). -/
theorem C10_missing_field_strict (ext : ExtConvs) (p : Post)
    (name field value : Str) (cvk : Conv) (ef rv : Bool)
    (he : META_NUM_TAGS name = some (field, cvk, ef, rv))
    (hmiss : p.info.lookup field = none) :
    meta_num_match ext p name value = .error .keyError
    ∧ search ext [p] [name ++ ':' :: value] = .error .keyError
    ∧ (∀ (p2 : Post) (sname v2 : Str) (f : Post → Str → Except Err Bool),
        p2.info = [] → META_STR_TAGS_FUNCS sname = some (some f) →
        (sname = "status".data → v2 ≠ "any".data ∧ v2 ≠ "all".data) →
        eval_meta_str p2 sname v2 = .error .keyError) := by
  obtain ⟨hcol, hl1, hl2⟩ := num_key_shape name (field, cvk, ef, rv) he
  have part1 : meta_num_match ext p name value = .error .keyError := by
    have hg : getInfo p field = .error .keyError := by
      unfold getInfo
      rw [hmiss]
    rw [meta_num_match_some ext p name field value cvk ef rv he, hg, bindE_err]
  refine ⟨part1, ?_, ?_⟩
  · have hhead : headOf (name ++ ':' :: value) = name :=
      headOf_append name value hcol
    have hnum : (META_NUM_TAGS name).isSome = true := by rw [he]; rfl
    have hstrF : (META_STR_TAGS_FUNCS name).isSome = false := by
      cases hq : (META_STR_TAGS_FUNCS name).isSome with
      | false => rfl
      | true => exact (num_str_disjoint name hnum hq).elim
    have hd : ([name ++ ':' :: value] : List Str).dedup
        = [name ++ ':' :: value] := by
      rw [List.dedup_cons_of_not_mem (List.not_mem_nil _), List.dedup_nil]
    have hstrN : META_STR_TAGS_FUNCS name = none := by
      cases hq : META_STR_TAGS_FUNCS name with
      | none => rfl
      | some o =>
        rw [hq] at hstrF
        exact Bool.noConfusion hstrF
    have hclass : classify [name ++ ':' :: value]
        = ([], [name ++ ':' :: value], []) := by
      simp [classify, hd, hhead, hnum, hstrN, he]
    unfold search
    rw [hclass]
    unfold filter_list
    have hfp : filter_post ext p [] [name ++ ':' :: value] []
        = .error .keyError := by
      unfold filter_post filter_analyze
      simp only [List.mapM_nil, List.mapM_cons, pureE, bindE_ok]
      rw [splitColon1_append name value hcol, bindE_ok,
        rstrip_eq_self name hl1 hl2, part1]
      simp [bindE_err]
    rw [hfp, bindE_err]
  · intro p2 sname v2 f hp2 hf hst
    have hget : ∀ k, getInfo p2 k = .error .keyError := by
      intro k
      unfold getInfo
      rw [hp2]
      rfl
    have hmem := lookup_key_mem STR_TABLE sname (some f) hf
    simp only [STR_TABLE, List.map_cons, List.map_nil, List.mem_cons,
      List.not_mem_nil, or_false] at hmem
    rcases hmem with rfl | rfl | rfl | rfl | rfl | rfl | rfl | rfl
    · exact show md5_func p2 v2 = Except.error Err.keyError by
        unfold md5_func
        rw [hget, bindE_err]
    · exact show filetype_func p2 v2 = Except.error Err.keyError by
        unfold filetype_func
        rw [hget, bindE_err]
    · exact show dltype_func p2 v2 = Except.error Err.keyError by
        unfold dltype_func
        rw [hget, bindE_err]
    · exact show rating_func p2 v2 = Except.error Err.keyError by
        unfold rating_func
        rw [hget, bindE_err]
    · exact show locked_func p2 v2 = Except.error Err.keyError by
        unfold locked_func
        rw [hget, bindE_err]
    · obtain ⟨ha, hb⟩ := hst rfl
      exact show status_func p2 v2 = Except.error Err.keyError by
        unfold status_func
        rw [if_neg (fun h => h.elim ha hb), hget, bindE_err]
    · exact absurd hf (by simp [META_STR_TAGS_FUNCS, STR_TABLE, List.lookup])
    · exact absurd hf (by simp [META_STR_TAGS_FUNCS, STR_TABLE, List.lookup])

/-- C10 (witness): a post with empty info evaluated against `score:5`
raises `KeyError` from the numeric path and from `search`, and `md5:x`
raises `KeyError` from the string path. -/
theorem C10_missing_field_strict_witness :
    meta_num_match extDefault postEmpty ("score".data) ("5".data)
      = .error .keyError
    ∧ search extDefault [postEmpty] [("score".data) ++ ':' :: ("5".data)]
      = .error .keyError
    ∧ eval_meta_str postEmpty ("md5".data) ("x".data) = .error .keyError := by
  obtain ⟨h1, h2, h3⟩ := C10_missing_field_strict extDefault postEmpty
    ("score".data) ("score".data) ("5".data) Conv.cInt false false
    (by decide) (by decide)
  exact ⟨h1, h2, h3 postEmpty ("md5".data) ("x".data) md5_func rfl rfl
    (fun h => absurd h (by decide))⟩

/-- The padded form always starts with a space. -/
theorem bigOf_head (ts : List Str) : ∃ tl, bigOf ts = ' ' :: tl := by
  cases ts with
  | nil => exact ⟨[], rfl⟩
  | cons t r => exact ⟨t ++ bigOf r, rfl⟩

/-- Padding a space-joined nonempty tag list equals the token-first
form. -/
theorem spaceJoin_pad (ts : List Str) (h : ts ≠ []) :
    ' ' :: spaceJoin ts ++ [' '] = bigOf ts := by
  induction ts with
  | nil => exact absurd rfl h
  | cons t r ih =>
    cases r with
    | nil => simp [spaceJoin, bigOf]
    | cons t2 r2 =>
      have h2 := ih (by simp)
      show ' ' :: (t ++ ' ' :: spaceJoin (t2 :: r2)) ++ [' ']
        = ' ' :: t ++ bigOf (t2 :: r2)
      rw [← h2]
      simp

/-- A space-free token followed by a space at the start of
`a ++ bigOf rest` with `a` space-free must equal `a`. -/
theorem tok_head_eq (rest : List Str) : ∀ (T a v : Str), ' ' ∉ T →
    ' ' ∉ a → T ++ ' ' :: v = a ++ bigOf rest → T = a := by
  intro T
  induction T with
  | nil =>
    intro a v hT ha h
    cases a with
    | nil => rfl
    | cons c a2 =>
      rw [List.nil_append] at h
      simp only [List.cons_append] at h
      injection h with h1 _
      exact absurd (by rw [← h1]; exact List.mem_cons_self ' ' a2) ha
  | cons d T2 ih =>
    intro a v hT ha h
    cases a with
    | nil =>
      obtain ⟨tl, htl⟩ := bigOf_head rest
      rw [List.nil_append, htl] at h
      simp only [List.cons_append] at h
      injection h with h1 _
      exact absurd (by rw [h1]; exact List.mem_cons_self ' ' T2) hT
    | cons c a2 =>
      simp only [List.cons_append] at h
      injection h with h1 h2
      have hT2 : ' ' ∉ T2 := fun hm => hT (List.mem_cons_of_mem d hm)
      have ha2 : ' ' ∉ a2 := fun hm => ha (List.mem_cons_of_mem c hm)
      rw [h1, ih a2 v hT2 ha2 h2]

/-- An occurrence of a space-headed pattern inside `a ++ bigOf rest`
with `a` space-free lies inside `bigOf rest`. -/
theorem occ_shift (rest : List Str) : ∀ (a u P v : Str),
    (∃ tl, P = ' ' :: tl) → ' ' ∉ a →
    u ++ P ++ v = a ++ bigOf rest → P <:+: bigOf rest := by
  intro a
  induction a with
  | nil =>
    intro u P v _ _ h
    exact ⟨u, v, by simpa using h⟩
  | cons c a2 ih =>
    intro u P v hP ha h
    cases u with
    | nil =>
      obtain ⟨tl, rfl⟩ := hP
      rw [List.nil_append] at h
      simp only [List.cons_append] at h
      injection h with h1 _
      exact absurd (by rw [← h1]; exact List.mem_cons_self ' ' a2) ha
    | cons e u2 =>
      simp only [List.cons_append] at h
      injection h with h1 h2
      exact ih u2 P v hP (fun hm => ha (List.mem_cons_of_mem c hm)) h2

/-- Forward direction of the token lemma: a padded space-free nonempty
token occurring inside the token-first padded form of a space-free tag
list is one of the tags. -/
theorem tok_of_infix (T : Str) (hT : T ≠ []) (hTs : ' ' ∉ T) :
    ∀ (tags : List Str), (∀ t ∈ tags, ' ' ∉ t) →
    (' ' :: T ++ [' ']) <:+: bigOf tags → T ∈ tags := by
  intro tags
  induction tags with
  | nil =>
    intro _ h
    obtain ⟨u, v, huv⟩ := h
    have hlen : (u ++ (' ' :: T ++ [' ']) ++ v).length = 1 := by
      rw [huv]
      rfl
    simp [List.length_append] at hlen
    omega
  | cons a rest ih =>
    intro htags h
    obtain ⟨u, v, huv⟩ := h
    cases u with
    | nil =>
      rw [List.nil_append,
        show bigOf (a :: rest) = ' ' :: (a ++ bigOf rest) from rfl] at huv
      simp only [List.cons_append, List.append_assoc,
        List.singleton_append] at huv
      injection huv with _ h2
      have := tok_head_eq rest T a v hTs
        (htags a (List.mem_cons_self a rest)) h2
      rw [this]
      exact List.mem_cons_self a rest
    | cons e u2 =>
      simp only [List.cons_append] at huv
      injection huv with _ h2
      have hin := occ_shift rest a u2 (' ' :: T ++ [' ']) v
        ⟨T ++ [' '], rfl⟩ (htags a (List.mem_cons_self a rest)) h2
      exact List.mem_cons_of_mem a
        (ih (fun t ht => htags t (List.mem_cons_of_mem a ht)) hin)

/-- Backward direction of the token lemma: every member tag occurs
padded inside the token-first padded form. -/
theorem infix_of_tok (T : Str) : ∀ (tags : List Str), T ∈ tags →
    (' ' :: T ++ [' ']) <:+: bigOf tags := by
  intro tags
  induction tags with
  | nil => intro h; exact absurd h (List.not_mem_nil T)
  | cons a rest ih =>
    intro h
    rcases List.mem_cons.mp h with rfl | h2
    · obtain ⟨tl, htl⟩ := bigOf_head rest
      refine ⟨[], tl, ?_⟩
      show (' ' :: T ++ [' ']) ++ tl = bigOf (T :: rest)
      rw [show bigOf (T :: rest) = ' ' :: T ++ bigOf rest from rfl, htl]
      simp
    · have h3 := ih h2
      have h4 : bigOf rest <:+: bigOf (a :: rest) := by
        refine ⟨' ' :: a, [], ?_⟩
        show (' ' :: a) ++ bigOf rest ++ [] = ' ' :: a ++ bigOf rest
        simp
      exact h3.trans h4

/-- C7 (confirmed): for a post whose tag string is a space-join of
nonempty space-free tags and a nonempty space-free term, `_tag_present`
answers exactly whole-token membership; in particular the term `cat`
does not match a post tagged only `cats` (see the witness). -/
theorem C7_whole_token_match (p : Post) (tags : List Str) (T : Str)
    (hfield : p.info.lookup ("tag_string".data)
      = some (.vStr (spaceJoin tags)))
    (hT : T ≠ []) (hTs : ' ' ∉ T)
    (htags : ∀ t ∈ tags, t ≠ [] ∧ ' ' ∉ t) :
    tag_present p T = .ok (decide (T ∈ tags)) := by
  unfold tag_present
  rw [show getInfo p ("tag_string".data)
      = .ok (.vStr (spaceJoin tags)) from by unfold getInfo; rw [hfield]]
  rw [bindE_ok]
  show Except.ok (decide ((' ' :: T ++ [' '])
      <:+: (' ' :: spaceJoin tags ++ [' ']))) = _
  congr 1
  rw [decide_eq_decide]
  cases tags with
  | nil =>
    show (' ' :: T ++ [' ']) <:+: [' ', ' '] ↔ T ∈ ([] : List Str)
    constructor
    · intro h
      obtain ⟨u, v, huv⟩ := h
      have hlen : (u ++ (' ' :: T ++ [' ']) ++ v).length = 2 := by
        rw [huv]
        rfl
      simp [List.length_append] at hlen
      have : T.length = 0 := by omega
      exact absurd (List.length_eq_zero.mp this) hT
    · intro h
      exact absurd h (List.not_mem_nil T)
  | cons a r =>
    rw [spaceJoin_pad (a :: r) (by simp)]
    constructor
    · exact fun h => tok_of_infix T hT hTs (a :: r)
        (fun t ht => (htags t ht).2) h
    · exact fun h => infix_of_tok T (a :: r) h

/-- C7 (witness): a post tagged `cats` does not satisfy the term `cat`,
and does satisfy the term `cats`. -/
theorem C7_whole_token_match_witness :
    tag_present (postWithTags ("cats".data)) ("cat".data) = .ok false
    ∧ tag_present (postWithTags ("cats".data)) ("cats".data) = .ok true := by
  constructor
  · have h := C7_whole_token_match (postWithTags ("cats".data))
      [("cats".data)] ("cat".data) (by decide) (by decide) (by decide)
      (by decide)
    rw [h]
    decide
  · have h := C7_whole_token_match (postWithTags ("cats".data))
      [("cats".data)] ("cats".data) (by decide) (by decide) (by decide)
      (by decide)
    rw [h]
    decide

end Kana2
